import Mathlib

/-!
Formal model of the request-orchestration pipeline of the pocketllm
model-management service, together with proofs about its cache-key
derivation, context building and truncation, cache lookup, similarity
search, admission queue, and streaming generation with cancellation.

Each definition is a shallow embedding of the corresponding Python
function under src/model-management-service/app.  Machine integers are
modelled as Nat or Int (Python integers are unbounded), floating point
similarity scores as rationals, and JSON values by an inductive type.
External library calls (hashlib.sha256, json.dumps, tiktoken token
counting, numpy cosine similarity, the Redis client and the HTTP model
server) are modelled as explicit function or data parameters, so every
theorem is quantified over their behaviour.
-/

/-- A JSON value, as carried in a model configuration dictionary
(app.models: config is an arbitrary JSON object). -/
inductive Json where
  | null
  | bool (b : Bool)
  | num (q : Rat)
  | str (s : String)
  | arr (xs : List Json)
  | obj (kvs : List (String × Json))

/-- Boolean key order used to model the sort_keys=True canonicalisation
performed by json.dumps. -/
def keyLe (a b : String) : Bool := !(decide (b < a))

/-- Insert a key-value pair into a key-sorted association list. -/
def insertByKey (p : String × Json) : List (String × Json) → List (String × Json)
  | [] => [p]
  | q :: qs => if keyLe p.1 q.1 then p :: q :: qs else q :: insertByKey p qs

/-- Sort an association list by key (model of the key ordering that
json.dumps applies with sort_keys=True). -/
def sortByKey : List (String × Json) → List (String × Json)
  | [] => []
  | p :: ps => insertByKey p (sortByKey ps)

mutual
/-- Canonical form of a JSON value under recursive key sorting: two
Python dicts are field-wise equal exactly when their canonical forms are
equal, and json.dumps with sort_keys=True serialises a value through
this canonical form. -/
def canonJson : Json → Json
  | .null => .null
  | .bool b => .bool b
  | .num q => .num q
  | .str s => .str s
  | .arr xs => .arr (canonList xs)
  | .obj kvs => .obj (sortByKey (canonKVs kvs))

/-- Canonicalise every element of a JSON array. -/
def canonList : List Json → List Json
  | [] => []
  | x :: xs => canonJson x :: canonList xs

/-- Canonicalise every value of a JSON object. -/
def canonKVs : List (String × Json) → List (String × Json)
  | [] => []
  | kv :: xs => (kv.1, canonJson kv.2) :: canonKVs xs
end

/-- A chat message: a dict with role and content keys
(role defaults to user and content to the empty string on access,
matching msg.get in the Python sources). -/
structure Msg where
  role : String
  content : String
deriving DecidableEq

/-- Python newline join: the semantics of a newline-separated
str.join call as used throughout context_builder.py and l1_cache.py. -/
def joinNL : List String → String
  | [] => ""
  | [x] => x
  | x :: y :: xs => x ++ "\n" ++ joinNL (y :: xs)

/-- Rendering of one history message as a context line, shared by
L1CacheHandler.generate_hash and ContextBuilder.build_context: system
messages are skipped, user and assistant messages become
Role-prefixed lines, any other role is silently dropped. -/
def msgLine (m : Msg) : Option String :=
  if m.role = "system" then none
  else if m.role = "user" then some ("User: " ++ m.content)
  else if m.role = "assistant" then some ("Assistant: " ++ m.content)
  else none

/-- The context string that L1CacheHandler.generate_hash synthesises
from a message list when no full context is supplied (l1_cache.py lines
40 to 58): the newline join of the rendered non-system messages. -/
def l1ContextFromMessages (messages : List Msg) : String :=
  joinNL (messages.filterMap msgLine)

/-- The dictionary hashed by L1CacheHandler.generate_hash: prompt, the
normalized context string, and the normalized model configuration.
json.dumps(hash_input, sort_keys=True) serialises exactly these three
fields, so two hash inputs serialise equally iff they are field-wise
equal after canonicalisation. -/
structure HashInput where
  prompt : String
  context : String
  model_config : Json

/-- Normalized context as computed inside generate_hash: when context
is absent and a non-empty message list is given, the context is
synthesised from the messages; afterwards a falsy context (absent or
empty string) becomes the empty string. -/
def effectiveContext (context : Option String) (messages : Option (List Msg)) : String :=
  let ctx : Option String :=
    match context, messages with
    | none, some (m :: ms) => some (l1ContextFromMessages (m :: ms))
    | c, _ => c
  match ctx with
  | none => ""
  | some s => s

/-- Normalized model configuration as computed inside generate_hash: a
missing configuration becomes the empty object, and the configuration is
taken up to the key ordering applied by json.dumps with sort_keys=True. -/
def effectiveConfig (model_config : Option Json) : Json :=
  canonJson (model_config.getD (.obj []))

/-- L1CacheHandler.generate_hash (l1_cache.py lines 20 to 73).  The
digest parameter stands for the external composition
sha256(json.dumps(hash_input, sort_keys=True)).hexdigest() of the
hashlib and json standard libraries; the repository code modelled here
is the context synthesis and the normalisation of the three hashed
fields. -/
def generate_hash {H : Type} (digest : HashInput → H)
    (prompt : String) (model_config : Option Json)
    (context : Option String) (messages : Option (List Msg)) : H :=
  digest ⟨prompt, effectiveContext context messages, effectiveConfig model_config⟩

/-- The default system prompt of ContextBuilder.build_context. -/
def default_system_prompt : String :=
  "You are a helpful AI assistant. Think carefully and accurately before responding. Always respond in clear, correct English. Be precise and thoughtful in your answers."

/-- The system prompt actually used by build_context: a provided
non-empty prompt, otherwise the default (Python or-expression, so both
None and the empty string fall back to the default). -/
def effectiveSystemPrompt (system_prompt : Option String) : String :=
  match system_prompt with
  | none => default_system_prompt
  | some s => if s = "" then default_system_prompt else s

/-- ContextBuilder.build_context (context_builder.py lines 18 to 66):
a System line, the rendered non-system history messages in order, the
new prompt as a User line, and a trailing assistant cue, joined by
newlines. -/
def build_context (messages : List Msg) (new_prompt : String)
    (system_prompt : Option String) : String :=
  joinNL (("System: " ++ effectiveSystemPrompt system_prompt)
    :: (messages.filterMap msgLine
        ++ ["User: " ++ new_prompt, "Assistant:"]))

/-- Python str.split on a newline, character by character: splitting
the empty text gives one empty piece, a newline starts a new piece, and
any other character extends the current piece. -/
def splitLinesChars : List Char → List (List Char)
  | [] => [[]]
  | c :: cs =>
      if c = '\n' then [] :: splitLinesChars cs
      else
        match splitLinesChars cs with
        | [] => [[c]]
        | l :: ls => (c :: l) :: ls

/-- Python context.split with the newline separator, as used by both
truncation helpers. -/
def splitNL (s : String) : List String := (splitLinesChars s.data).map String.mk

/-- Python line.startswith(pre). -/
def strStartsWith (s pre : String) : Bool := pre.data.isPrefixOf s.data

/-- Configured token budget for model input (config.py). -/
def MAX_CONTEXT_TOKENS : Int := 4096

/-- Configured truncation mode (config.py). -/
def CONTEXT_TRUNCATION_MODE : String := "sliding_window"

/-- Effective token budget inside truncate_if_needed: a falsy argument
(absent or zero) falls back to the configured value. -/
def effectiveMaxTokens (max_tokens : Option Int) : Int :=
  match max_tokens with
  | none => MAX_CONTEXT_TOKENS
  | some v => if v = 0 then MAX_CONTEXT_TOKENS else v

/-- Effective truncation mode inside truncate_if_needed: a falsy
argument (absent or empty) falls back to the configured value. -/
def effectiveMode (mode : Option String) : String :=
  match mode with
  | none => CONTEXT_TRUNCATION_MODE
  | some s => if s = "" then CONTEXT_TRUNCATION_MODE else s

/-- The token counter count_tokens (token_counter.py) wraps the external
tiktoken cl100k_base encoder, so it is carried as a function parameter
tok in every definition below.  The line-adding loop shared verbatim by
both truncation helpers: walk the non-system lines most recent first
(the reversed list), prepend each line whose token count still fits the
remaining budget, and stop at the first line that does not fit.  The
remaining budget is a Python int and may be negative. -/
def addLoop (tok : String → Nat) : Int → List String → List String → List String
  | _, added, [] => added
  | remaining, added, l :: rest =>
      if (tok l : Int) ≤ remaining then
        addLoop tok (remaining - (tok l : Int)) (l :: added) rest
      else added

/-- ContextBuilder._truncate_sliding_window (context_builder.py lines
105 to 137): split into lines, separate the System-prefixed lines from
the rest in one ordered pass, keep all System lines, then add
non-system lines back-to-front while they fit the leftover budget. -/
def truncate_sliding_window (tok : String → Nat) (context : String)
    (max_tokens : Int) : String :=
  let lines := splitNL context
  let system_lines := (lines.partition (fun l => strStartsWith l "System:")).1
  let other_lines := (lines.partition (fun l => strStartsWith l "System:")).2
  let remaining : Int := max_tokens - (tok (joinNL system_lines) : Int)
  let added := addLoop tok remaining [] other_lines.reverse
  joinNL (system_lines ++ added)

/-- ContextBuilder._truncate_last_n (context_builder.py lines 139 to
163): the same computation written with two filters instead of one
partition. -/
def truncate_last_n (tok : String → Nat) (context : String)
    (max_tokens : Int) : String :=
  let lines := splitNL context
  let system_lines := lines.filter (fun l => strStartsWith l "System:")
  let other_lines := lines.filter (fun l => !(strStartsWith l "System:"))
  let remaining : Int := max_tokens - (tok (joinNL system_lines) : Int)
  let added := addLoop tok remaining [] other_lines.reverse
  joinNL (system_lines ++ added)

/-- ContextBuilder.truncate_if_needed (context_builder.py lines 68 to
103): return the context unchanged when it is within budget, otherwise
dispatch on the truncation mode. -/
def truncate_if_needed (tok : String → Nat) (context : String)
    (max_tokens : Option Int) (mode : Option String) : String :=
  let mt := effectiveMaxTokens max_tokens
  let md := effectiveMode mode
  if (tok context : Int) ≤ mt then context
  else if md = "sliding_window" then truncate_sliding_window tok context mt
  else truncate_last_n tok context mt

/-- Configured queue capacity (config.py). -/
def MAX_QUEUE_SIZE : Nat := 50

/-- The two failure modes of RequestQueue.enqueue: Redis unavailable
(service-unavailable) and queue at capacity. -/
inductive QueueError where
  | serviceUnavailable
  | queueFull
deriving DecidableEq

/-- RequestQueue.enqueue (queue_manager.py lines 22 to 71).  The Redis
list is modelled as a Lean list with its head at the Redis head, so
LPUSH is cons; redisAvailable is false when get_redis_client returns
the PlaceholderRedis fallback.  The result pairs the outcome with the
queue contents after the call. -/
def enqueue {α : Type} (maxSize : Nat) (redisAvailable : Bool)
    (q : List α) (item : α) : Except QueueError Bool × List α :=
  if !redisAvailable then (.error .serviceUnavailable, q)
  else if maxSize ≤ q.length then (.error .queueFull, q)
  else (.ok true, item :: q)

/-- Configured similarity threshold (config.py). -/
def CACHE_SIMILARITY_THRESHOLD : Rat := 85/100

/-- Effective threshold inside find_similar: a falsy argument (absent
or zero) falls back to the configured value. -/
def effectiveThreshold (threshold : Option Rat) : Rat :=
  match threshold with
  | none => CACHE_SIMILARITY_THRESHOLD
  | some t => if t = 0 then CACHE_SIMILARITY_THRESHOLD else t

/-- One stored L2 cache value as seen by the scan in find_similar: the
Redis get or the JSON parse may raise (caught, entry skipped), the
value may be absent, or it is a parsed object whose embedding and
response fields may each be missing. -/
inductive L2Entry where
  | raises (e : String)
  | empty
  | fields (embedding : Option (List Rat)) (response : Option String)

/-- The usable payload of an L2 entry: present exactly when the entry
parsed and both the embedding and the response are truthy (a non-empty
vector and a non-empty string), matching the guard
if cached_embedding and cached_response in l2_cache.py. -/
def usableData : L2Entry → Option (List Rat × String)
  | .fields (some emb) (some resp) =>
      if emb = [] then none
      else if resp = "" then none
      else some (emb, resp)
  | _ => none

/-- The scan loop of L2CacheHandler.find_similar (l2_cache.py lines 86
to 104): best match and best similarity start at None and 0.0; an entry
replaces the best exactly when its similarity is strictly above the
running best and at least the threshold.  The cosine similarity
computation (numpy, embeddings.py) is the parameter cos. -/
def findLoop (cos : List Rat → List Rat → Rat) (threshold : Rat)
    (q : List Rat) :
    List L2Entry → Option (String × Rat) → Rat → Option (String × Rat)
  | [], best, _ => best
  | e :: rest, best, bestSim =>
      match usableData e with
      | none => findLoop cos threshold q rest best bestSim
      | some (emb, resp) =>
          let similarity := cos q emb
          if bestSim < similarity ∧ threshold ≤ similarity then
            findLoop cos threshold q rest (some (resp, similarity)) similarity
          else
            findLoop cos threshold q rest best bestSim

/-- L2CacheHandler.find_similar (l2_cache.py lines 32 to 124): when the
key enumeration itself fails the outer handler returns None, otherwise
the store is scanned in enumeration order. -/
def find_similar (cos : List Rat → List Rat → Rat) (threshold : Option Rat)
    (store : Except String (List L2Entry)) (embedding : List Rat) :
    Option (String × Rat) :=
  match store with
  | .error _ => none
  | .ok entries => findLoop cos (effectiveThreshold threshold) embedding entries none 0

/-- The body of the try block of CacheManager.check_cache
(cache_manager_service.py lines 37 to 64): derive the key, consult the
L1 cache, then embed the prompt and consult the L2 cache.  The three
backing operations are parameters that may raise (Except.error). -/
def check_cache_attempt {E : Type}
    (l1check : String → Except E (Option String))
    (embed : String → Except E (List Rat))
    (findSim : List Rat → Except E (Option (String × Rat)))
    (digest : HashInput → String)
    (prompt : String) (model_config : Option Json) (context : Option String)
    (messages : Option (List Msg)) : Except E (Option (String × String)) := do
  let hash := generate_hash digest prompt model_config context messages
  match ← l1check hash with
  | some r => return some (r, "l1")
  | none =>
    let emb ← embed prompt
    match ← findSim emb with
    | some (resp, _) => return some (resp, "l2")
    | none => return none

/-- CacheManager.check_cache (cache_manager_service.py lines 19 to 67):
the try body wrapped in the except handler that converts any raised
error into a miss (None). -/
def check_cache {E : Type}
    (l1check : String → Except E (Option String))
    (embed : String → Except E (List Rat))
    (findSim : List Rat → Except E (Option (String × Rat)))
    (digest : HashInput → String)
    (prompt : String) (model_config : Option Json) (context : Option String)
    (messages : Option (List Msg)) : Option (String × String) :=
  match check_cache_attempt l1check embed findSim digest prompt model_config
      context messages with
  | .ok v => v
  | .error _ => none

/-- Configured retry count for model calls (config.py). -/
def MODEL_MAX_RETRIES : Nat := 2

/-- One line of the streaming Ollama response as parsed by
ModelClient.stream_completion: blank lines and JSON decode failures are
skipped; a payload carries the response token, the done flag, and an
optional error field. -/
inductive Line where
  | blank
  | malformed (s : String)
  | payload (response : String) (doneFlag : Bool) (error : Option String)

/-- How one streaming attempt ends: the line loop ran to completion or
hit a done line (a normal return), the cancellation token was observed
as done, or an error was raised. -/
inductive AttemptEnd where
  | finished
  | cancelDetected
  | failed (e : String)
deriving DecidableEq

/-- How the whole retry loop of stream_completion ends. -/
inductive StreamEnd where
  | success
  | cancelledEnd
  | errored (e : String)
deriving DecidableEq

/-- The cancellation token check performed before each line: the token
is an asyncio task whose done() becomes true once it is cancelled;
cancelFrom = some k models a token that reads as done from the k-th
line check onwards, none models no token or a never-cancelled one. -/
def cancelHit (cancelFrom : Option Nat) (i : Nat) : Bool :=
  match cancelFrom with
  | none => false
  | some k => decide (k ≤ i)

/-- The line loop of ModelClient.stream_completion (model_client.py
lines 94 to 131) for one attempt, threading the global count i of line
checks performed so far: before each line the cancellation token is
consulted; a payload yields its token if non-empty, returns on a done
flag, and raises on an error field.  Returns the yielded tokens, how
the attempt ended, and the updated check count. -/
def runLines (cancelFrom : Option Nat) :
    Nat → List Line → List String × AttemptEnd × Nat
  | i, [] => ([], .finished, i)
  | i, l :: rest =>
      if cancelHit cancelFrom i then ([], .cancelDetected, i)
      else
        match l with
        | .blank => runLines cancelFrom (i+1) rest
        | .malformed _ => runLines cancelFrom (i+1) rest
        | .payload resp d err =>
            let toks := if resp = "" then [] else [resp]
            if d then (toks, .finished, i+1)
            else
              match err with
              | some m => (toks, .failed ("Model server error: " ++ m), i+1)
              | none =>
                  let r := runLines cancelFrom (i+1) rest
                  (toks ++ r.1, r.2.1, r.2.2)

/-- The retry loop of ModelClient.stream_completion (model_client.py
lines 59 to 137): each element of the attempts list is the model
server behaviour on one of the MODEL_MAX_RETRIES attempts, either an
HTTP-level failure before any line (bad status, transport or timeout
error) or a stream of lines.  A failed attempt retries unless it was
the last, in which case the error propagates; tokens already yielded by
earlier attempts remain yielded. -/
def stream_completion (cancelFrom : Option Nat) :
    Nat → List (Except String (List Line)) → List String × StreamEnd
  | _, [] => ([], .errored "Model request failed after retries")
  | i, a :: rest =>
      match a with
      | .error e =>
          match rest with
          | [] => ([], .errored e)
          | _ :: _ => stream_completion cancelFrom i rest
      | .ok lines =>
          let r := runLines cancelFrom i lines
          match r.2.1 with
          | .finished => (r.1, .success)
          | .cancelDetected => (r.1, .cancelledEnd)
          | .failed msg =>
              match rest with
              | [] => (r.1, .errored msg)
              | _ :: _ =>
                  let s := stream_completion cancelFrom r.2.2 rest
                  (r.1 ++ s.1, s.2)

/-- ModelClient.get_completion (model_client.py lines 139 to 198): the
non-streaming call with the same retry policy; each list element is the
server behaviour on one attempt. -/
def get_completion : List (Except String String) → Except String String
  | [] => .error "Model request failed after retries"
  | .ok r :: _ => .ok r
  | .error e :: rest =>
      match rest with
      | [] => .error e
      | _ :: _ => get_completion rest

/-- One event yielded by ModelOrchestrator.generate_response.  The
wall-clock latency_ms field is omitted (real time is outside the
model); absent dictionary keys are none. -/
structure Chunk where
  token : String
  done : Bool
  tokensGenerated : Option Nat := none
  fullResponse : Option String := none
  tokensPrompt : Option Nat := none
  error : Option String := none
deriving DecidableEq

/-- The streaming token event: tokens_generated counts tokens emitted
so far, including this one. -/
def tokenChunk (i : Nat) (t : String) : Chunk :=
  { token := t, done := false, tokensGenerated := some (i + 1) }

/-- The token events for a list of streamed tokens, numbering from n. -/
def tokenChunks : Nat → List String → List Chunk
  | _, [] => []
  | n, t :: ts => tokenChunk n t :: tokenChunks (n + 1) ts

/-- The final completion event of generate_response: done with the
accumulated full response and the token counts. -/
def successChunk (tok : String → Nat) (context : String)
    (toks : List String) : Chunk :=
  { token := "", done := true, tokensGenerated := some toks.length,
    fullResponse := some (String.join toks), tokensPrompt := some (tok context) }

/-- The terminal event yielded by the except handler of
generate_response: done with an error field. -/
def errorChunk (e : String) : Chunk :=
  { token := "", done := true, error := some e }

/-- ModelOrchestrator.generate_response (model_orchestrator.py lines 21
to 92): in streaming mode, forward one token event per streamed token
and then fall through to the final completion event; in non-streaming
mode, one blocking call produces a done event with the full text and
then the final completion event.  Any exception from the model client
(for example after exhausted retries) is caught and converted into a
terminal error event.  serverStream and serverOnce describe the model
server behaviour per attempt for the two client calls. -/
def generate_response (tok : String → Nat) (context : String) (stream : Bool)
    (serverStream : List (Except String (List Line)))
    (serverOnce : List (Except String String))
    (cancelFrom : Option Nat) : List Chunk :=
  if stream then
    let r := stream_completion cancelFrom 0 serverStream
    match r.2 with
    | .errored e => tokenChunks 0 r.1 ++ [errorChunk e]
    | _ => tokenChunks 0 r.1 ++ [successChunk tok context r.1]
  else
    match get_completion serverOnce with
    | .ok resp =>
        [{ token := resp, done := true, tokensGenerated := some (tok resp) },
         { token := "", done := true, tokensGenerated := some (tok resp),
           fullResponse := some resp, tokensPrompt := some (tok context) }]
    | .error e => [errorChunk e]

/-! ## Theorems -/

/-- Newline join of a list known to be non-empty. -/
lemma joinNL_cons_of_ne (x : String) (l : List String) (h : l ≠ []) :
    joinNL (x :: l) = x ++ "\n" ++ joinNL l := by
  cases l with
  | nil => exact absurd rfl h
  | cons y ys => rfl

/-- Newline join of a message-line list followed by the prompt line and
the assistant cue. -/
lemma joinNL_append_pair (ls : List String) (u a : String) :
    joinNL (ls ++ [u, a]) =
      (if ls = [] then "" else joinNL ls ++ "\n") ++ u ++ "\n" ++ a := by
  induction ls with
  | nil => simp [joinNL]
  | cons x xs ih =>
    rw [List.cons_append, joinNL_cons_of_ne _ _ (by simp), ih]
    by_cases hxs : xs = []
    · subst hxs
      simp [joinNL, String.append_assoc]
    · rw [if_neg hxs, if_neg (by simp), joinNL_cons_of_ne _ _ hxs]
      simp [String.append_assoc]

/-- C1: cache-key derivation via L1CacheHandler.generate_hash is
deterministic (a pure function of its inputs, hence stable across
repeated derivations and process restarts), and, assuming the digest
sha256 of the sort_keys JSON serialisation is collision-free
(Function.Injective digest), two derivations produce the same key iff
prompt, normalized full context, and normalized configuration are
field-wise equal, where a missing configuration is normalized to the
empty object. -/
theorem generate_hash_deterministic_and_faithful {H : Type}
    (digest : HashInput → H) (hinj : Function.Injective digest)
    (p₁ p₂ : String) (g₁ g₂ : Option Json) (c₁ c₂ : Option String)
    (m₁ m₂ : Option (List Msg)) :
    generate_hash digest p₁ g₁ c₁ m₁ = generate_hash digest p₁ g₁ c₁ m₁ ∧
    (generate_hash digest p₁ g₁ c₁ m₁ = generate_hash digest p₂ g₂ c₂ m₂ ↔
      (p₁ = p₂ ∧ effectiveContext c₁ m₁ = effectiveContext c₂ m₂ ∧
        effectiveConfig g₁ = effectiveConfig g₂)) := by
  refine ⟨rfl, ?_, ?_⟩
  · intro h
    have h2 := hinj h
    exact ⟨congrArg HashInput.prompt h2, congrArg HashInput.context h2,
      congrArg HashInput.model_config h2⟩
  · rintro ⟨h1, h2, h3⟩
    unfold generate_hash
    rw [h1, h2, h3]

/-- Witness for C1 at the identity digest and concrete inputs. -/
theorem generate_hash_deterministic_and_faithful_witness :
    Function.Injective (id : HashInput → HashInput) ∧
    (generate_hash (id : HashInput → HashInput) "Hi" none none none =
        generate_hash id "Hi" none none none ∧
      (generate_hash (id : HashInput → HashInput) "Hi" none none none =
          generate_hash id "Hi" none (some "") none ↔
        ("Hi" = "Hi" ∧ effectiveContext none none = effectiveContext (some "") none ∧
          effectiveConfig none = effectiveConfig none))) :=
  ⟨Function.injective_id,
    generate_hash_deterministic_and_faithful id Function.injective_id
      "Hi" "Hi" none none none (some "") none none⟩

/-- C10: an absent context with no messages, an explicit empty-string
context, and an empty messages list all normalize to the empty context
string inside generate_hash, so the three calls produce the identical
cache key for any prompt and configuration. -/
theorem generate_hash_empty_context_collision {H : Type}
    (digest : HashInput → H) (p : String) (g : Option Json) :
    generate_hash digest p g none none = generate_hash digest p g (some "") none ∧
    generate_hash digest p g none none = generate_hash digest p g none (some []) :=
  ⟨rfl, rfl⟩

/-- C2 counterexample: with messages containing a single user message
Hi and prompt Yo, the cache key derived with fullContext absent differs
from the key derived with fullContext set to
build_context(messages, prompt); the synthesized context omits the
System line, the new prompt line and the assistant cue that
build_context appends, so the two hash inputs differ in their context
field. -/
theorem generate_hash_vs_build_context_counterexample :
    generate_hash (id : HashInput → HashInput) "Yo" none none
        (some [⟨"user", "Hi"⟩]) ≠
      generate_hash (id : HashInput → HashInput) "Yo" none
        (some (build_context [⟨"user", "Hi"⟩] "Yo" none)) none :=
  fun h => absurd (congrArg HashInput.context h) (by decide)

/-- C2 amended: the context that generate_hash synthesises from the
messages uses the same Role-prefixed joining rule as build_context:
build_context equals the System line, followed by the synthesized
context (when non-empty), followed by the new prompt line and the
assistant cue.  The cache keys themselves differ whenever the digest
distinguishes the two context strings. -/
theorem build_context_extends_l1_context (msgs : List Msg) (p : String)
    (sys : Option String) :
    build_context msgs p sys =
      "System: " ++ effectiveSystemPrompt sys ++ "\n" ++
      (if msgs.filterMap msgLine = [] then ""
        else l1ContextFromMessages msgs ++ "\n") ++
      "User: " ++ p ++ "\n" ++ "Assistant:" := by
  unfold build_context l1ContextFromMessages
  rw [joinNL_cons_of_ne _ _ (by simp), joinNL_append_pair]
  simp [String.append_assoc]

/-- C5: CacheManager.check_cache never raises to its caller: whenever
the body of its try block (any storage, hashing, or embedding step
during lookup) raises an error, the lookup degrades to a miss (None)
instead of propagating the exception. -/
theorem check_cache_fail_open {E : Type}
    (l1check : String → Except E (Option String))
    (embed : String → Except E (List Rat))
    (findSim : List Rat → Except E (Option (String × Rat)))
    (digest : HashInput → String)
    (prompt : String) (model_config : Option Json) (context : Option String)
    (messages : Option (List Msg)) (e : E)
    (h : check_cache_attempt l1check embed findSim digest prompt model_config
        context messages = .error e) :
    check_cache l1check embed findSim digest prompt model_config
      context messages = none := by
  unfold check_cache
  rw [h]

/-- Witness for C5: a lookup whose L1 storage access raises degrades to
a miss. -/
theorem check_cache_fail_open_witness :
    check_cache_attempt (fun _ => Except.error "redis unavailable")
        (fun _ => Except.ok ([] : List Rat))
        (fun _ => Except.ok (none : Option (String × Rat)))
        (fun _ => "k") "Hi" none none none = Except.error "redis unavailable" ∧
    check_cache (fun _ => Except.error "redis unavailable")
        (fun _ => Except.ok ([] : List Rat))
        (fun _ => Except.ok (none : Option (String × Rat)))
        (fun _ => "k") "Hi" none none none = none :=
  ⟨rfl, check_cache_fail_open _ _ _ _ _ _ _ _ _ rfl⟩

/-- C6: with the backing store available, RequestQueue.enqueue rejects
with a capacity error and leaves the queue contents (hence its length)
unchanged when the current length is at least the capacity, and appends
the item and reports success when the length is below capacity. -/
theorem enqueue_capacity {α : Type} (maxSize : Nat) (q : List α) (item : α) :
    (maxSize ≤ q.length →
      enqueue maxSize true q item = (.error .queueFull, q)) ∧
    (q.length < maxSize →
      enqueue maxSize true q item = (.ok true, item :: q)) := by
  constructor
  · intro h
    simp [enqueue, h]
  · intro h
    simp [enqueue, Nat.not_le.mpr h]

/-- Witness for C6 at the default capacity 50: the 51st enqueue is
rejected and the queue keeps its 50 elements; below capacity the item
is added. -/
theorem enqueue_capacity_witness :
    (MAX_QUEUE_SIZE ≤ (List.replicate 50 "r").length ∧
      enqueue MAX_QUEUE_SIZE true (List.replicate 50 "r") "x" =
        (.error .queueFull, List.replicate 50 "r")) ∧
    ((List.replicate 49 "r").length < MAX_QUEUE_SIZE ∧
      enqueue MAX_QUEUE_SIZE true (List.replicate 49 "r") "x" =
        (.ok true, "x" :: List.replicate 49 "r")) :=
  ⟨⟨by decide, (enqueue_capacity _ _ _).1 (by decide)⟩,
    ⟨by decide, (enqueue_capacity _ _ _).2 (by decide)⟩⟩

/-- The ordered partition used by the sliding-window helper equals the
two filters used by the last-n helper, so the two helpers agree. -/
lemma truncate_helpers_eq (tok : String → Nat) (context : String)
    (max_tokens : Int) :
    truncate_sliding_window tok context max_tokens =
      truncate_last_n tok context max_tokens := by
  have hcomp : (not ∘ fun l : String => strStartsWith l "System:") =
      (fun l : String => !strStartsWith l "System:") := rfl
  simp [truncate_sliding_window, truncate_last_n,
    List.partition_eq_filter_filter, hcomp]

/-- C9: the two truncation modes are functionally equivalent: for every
token counter, context string and budget, _truncate_sliding_window and
_truncate_last_n return identical strings (the ordered partition of the
first equals the two filters of the second, and the remaining code is
the same). -/
theorem truncate_modes_equivalent (tok : String → Nat) (context : String)
    (max_tokens : Int) :
    truncate_sliding_window tok context max_tokens =
      truncate_last_n tok context max_tokens :=
  truncate_helpers_eq tok context max_tokens

/-- The tokens and the attempt end produced by the line loop do not
depend on the line-check counter when no cancellation token is
present. -/
lemma runLines_none_counter_irrelevant (lines : List Line) (i j : Nat) :
    (runLines none i lines).1 = (runLines none j lines).1 ∧
    (runLines none i lines).2.1 = (runLines none j lines).2.1 := by
  induction lines generalizing i j with
  | nil => exact ⟨rfl, rfl⟩
  | cons l rest ih =>
    cases l with
    | blank => exact ih (i + 1) (j + 1)
    | malformed s => exact ih (i + 1) (j + 1)
    | payload resp d err =>
      cases d with
      | true => exact ⟨rfl, rfl⟩
      | false =>
        cases err with
        | some m => exact ⟨rfl, rfl⟩
        | none =>
          have h := ih (i + 1) (j + 1)
          simp [runLines, cancelHit, h.1, h.2]

/-- One-step unfolding of the retry loop on a failed HTTP-level attempt
that still has retries left. -/
lemma stream_completion_cons_error (cancelFrom : Option Nat) (i : Nat)
    (e : String) (b : Except String (List Line))
    (bs : List (Except String (List Line))) :
    stream_completion cancelFrom i (Except.error e :: b :: bs) =
      stream_completion cancelFrom i (b :: bs) := rfl

/-- One-step unfolding of the retry loop on an attempt that streamed
lines. -/
lemma stream_completion_cons_ok (cancelFrom : Option Nat) (i : Nat)
    (lines : List Line) (rest : List (Except String (List Line))) :
    stream_completion cancelFrom i (Except.ok lines :: rest) =
      (match (runLines cancelFrom i lines).2.1 with
        | .finished => ((runLines cancelFrom i lines).1, .success)
        | .cancelDetected => ((runLines cancelFrom i lines).1, .cancelledEnd)
        | .failed msg =>
          match rest with
          | [] => ((runLines cancelFrom i lines).1, .errored msg)
          | _ :: _ =>
            ((runLines cancelFrom i lines).1 ++
                (stream_completion cancelFrom (runLines cancelFrom i lines).2.2 rest).1,
              (stream_completion cancelFrom (runLines cancelFrom i lines).2.2 rest).2)) := rfl

/-- When every attempt of the retry loop fails, stream_completion ends
in an error. -/
lemma stream_completion_all_fail
    (attempts : List (Except String (List Line))) (i : Nat)
    (hfail : ∀ a ∈ attempts, ∀ lines, a = Except.ok lines →
      ∃ msg, (runLines none 0 lines).2.1 = AttemptEnd.failed msg) :
    ∃ toks e, stream_completion none i attempts = (toks, .errored e) := by
  induction attempts generalizing i with
  | nil => exact ⟨[], _, rfl⟩
  | cons a rest ih =>
    cases a with
    | error e =>
      cases rest with
      | nil => exact ⟨[], e, rfl⟩
      | cons b bs =>
        obtain ⟨toks, e2, h⟩ := ih i (fun x hx => hfail x (List.mem_cons_of_mem _ hx))
        exact ⟨toks, e2, by rw [stream_completion_cons_error, h]⟩
    | ok lines =>
      obtain ⟨msg, hmsg⟩ := hfail _ (List.mem_cons_self _ _) lines rfl
      have hend : (runLines none i lines).2.1 = AttemptEnd.failed msg := by
        rw [(runLines_none_counter_irrelevant lines i 0).2, hmsg]
      cases rest with
      | nil =>
        refine ⟨(runLines none i lines).1, msg, ?_⟩
        rw [stream_completion_cons_ok, hend]
      | cons b bs =>
        obtain ⟨toks, e, htoks⟩ :=
          ih (runLines none i lines).2.2
            (fun x hx => hfail x (List.mem_cons_of_mem _ hx))
        refine ⟨(runLines none i lines).1 ++ toks, e, ?_⟩
        rw [stream_completion_cons_ok, hend, htoks]

/-- C8: when the underlying streaming model call fails on every attempt
of the retry loop (exhausting the configured retries),
ModelOrchestrator.generate_response does not raise to its consumer: it
is a total function whose output is the already-forwarded token events
followed by one terminal chunk with done true carrying an error field,
so the caller always receives a terminal signal. -/
theorem generate_response_retry_exhaustion (tok : String → Nat)
    (context : String) (attempts : List (Except String (List Line)))
    (serverOnce : List (Except String String))
    (hfail : ∀ a ∈ attempts, ∀ lines, a = Except.ok lines →
      ∃ msg, (runLines none 0 lines).2.1 = AttemptEnd.failed msg) :
    ∃ toks e, generate_response tok context true attempts serverOnce none =
      tokenChunks 0 toks ++ [errorChunk e] := by
  obtain ⟨toks, e, h⟩ := stream_completion_all_fail attempts 0 hfail
  exact ⟨toks, e, by simp [generate_response, h]⟩

/-- Witness for C8: both of the MODEL_MAX_RETRIES attempts fail with a
transport error; the orchestrator output is exactly one terminal error
chunk. -/
theorem generate_response_retry_exhaustion_witness :
    (∀ a ∈ [Except.error "boom", Except.error "boom"],
      ∀ lines, a = Except.ok lines →
        ∃ msg, (runLines none 0 lines).2.1 = AttemptEnd.failed msg) ∧
    (∃ toks e, generate_response (fun s => s.length) "ctx" true
        [Except.error "boom", Except.error "boom"] [] none =
      tokenChunks 0 toks ++ [errorChunk e]) ∧
    generate_response (fun s => s.length) "ctx" true
        [Except.error "boom", Except.error "boom"] [] none =
      [errorChunk "boom"] := by
  have hfail : ∀ a ∈ [Except.error "boom", Except.error "boom"],
      ∀ lines, a = Except.ok lines →
        ∃ msg, (runLines none 0 lines).2.1 = AttemptEnd.failed msg := by
    intro a ha lines hl
    fin_cases ha <;> simp_all
  exact ⟨hfail,
    generate_response_retry_exhaustion (fun s => s.length) "ctx" _ [] hfail,
    rfl⟩

/-- One-step unfolding of the line-adding loop. -/
lemma addLoop_cons (tok : String → Nat) (r : Int) (acc : List String)
    (l : String) (rest : List String) :
    addLoop tok r acc (l :: rest) =
      if (tok l : Int) ≤ r then
        addLoop tok (r - (tok l : Int)) (l :: acc) rest
      else acc := rfl

/-- The line-adding loop keeps a prefix of its reversed input (hence a
suffix of the original line order), and the per-line token counts of
the kept lines sum to at most the non-negative part of the remaining
budget. -/
lemma addLoop_spec (tok : String → Nat) :
    ∀ (rev : List String) (r : Int) (acc : List String),
      ∃ k, k ≤ rev.length ∧
        addLoop tok r acc rev = (rev.take k).reverse ++ acc ∧
        ((rev.take k).map (fun l => (tok l : Int))).sum ≤ max 0 r := by
  intro rev
  induction rev with
  | nil =>
    intro r acc
    exact ⟨0, Nat.le_refl 0, rfl, by simp⟩
  | cons l rest ih =>
    intro r acc
    by_cases h : (tok l : Int) ≤ r
    · obtain ⟨k, hk, heq, hsum⟩ := ih (r - (tok l : Int)) (l :: acc)
      refine ⟨k + 1, Nat.succ_le_succ hk, ?_, ?_⟩
      · rw [addLoop_cons, if_pos h, heq]
        simp
      · have hl : (0 : Int) ≤ (tok l : Int) := Int.natCast_nonneg _
        simp only [List.take_succ_cons, List.map_cons, List.sum_cons]
        rcases le_or_lt 0 (r - (tok l : Int)) with h2 | h2
        · rw [max_eq_right h2] at hsum
          calc (tok l : Int) + ((rest.take k).map (fun x => (tok x : Int))).sum
              ≤ (tok l : Int) + (r - (tok l : Int)) := by linarith
            _ = r := by ring
            _ ≤ max 0 r := le_max_right 0 r
        · rw [max_eq_left (by linarith)] at hsum
          calc (tok l : Int) + ((rest.take k).map (fun x => (tok x : Int))).sum
              ≤ (tok l : Int) + 0 := by linarith
            _ ≤ r := by linarith
            _ ≤ max 0 r := le_max_right 0 r
    · exact ⟨0, Nat.zero_le _, by rw [addLoop_cons, if_neg h]; rfl,
        by simp⟩

/-- C3 counterexample: with the character-count tokenizer, the context
consisting of two System lines of 18 tokens each and a budget of 1
token is over budget, the truncated result keeps both System lines in
full and is the whole context again, and its 37 tokens exceed the
budget by more than the largest single line (one message) is worth. -/
theorem truncate_budget_counterexample :
    (1 : Int) <
      ((fun s : String => s.length) "System: aaaaaaaaaa\nSystem: bbbbbbbbbb" : Int) ∧
    truncate_if_needed (fun s => s.length) "System: aaaaaaaaaa\nSystem: bbbbbbbbbb"
        (some 1) (some "sliding_window") = "System: aaaaaaaaaa\nSystem: bbbbbbbbbb" ∧
    (∀ l ∈ splitNL "System: aaaaaaaaaa\nSystem: bbbbbbbbbb", l.length ≤ 18) ∧
    1 + 18 <
      ((fun s : String => s.length)
        (truncate_if_needed (fun s => s.length)
          "System: aaaaaaaaaa\nSystem: bbbbbbbbbb" (some 1)
          (some "sliding_window")) : Int) := by
  refine ⟨by decide, by decide, by decide, by decide⟩

/-- C3 amended: truncate_if_needed is the identity when the context is
within the token budget; when it is over budget, the result consists of
every System-prefixed line of the context, in full and in order,
followed by a contiguous suffix of the non-system lines (dropping from
the oldest first), and the kept non-system lines fit, by the per-line
accounting the code uses, within the budget left after the System
lines (so the budget can still be exceeded by the System lines
themselves and by the uncounted newline separators, as the
counterexample shows, but never by the kept non-system lines). -/
theorem truncate_if_needed_spec (tok : String → Nat) (context : String)
    (max_tokens : Option Int) (mode : Option String) :
    ((tok context : Int) ≤ effectiveMaxTokens max_tokens →
      truncate_if_needed tok context max_tokens mode = context) ∧
    (effectiveMaxTokens max_tokens < (tok context : Int) →
      ∃ added : List String,
        added <:+ ((splitNL context).filter (fun l => !strStartsWith l "System:")) ∧
        truncate_if_needed tok context max_tokens mode =
          joinNL ((splitNL context).filter (fun l => strStartsWith l "System:")
            ++ added) ∧
        (added.map (fun l => (tok l : Int))).sum ≤
          max 0 (effectiveMaxTokens max_tokens -
            (tok (joinNL ((splitNL context).filter
              (fun l => strStartsWith l "System:"))) : Int))) := by
  constructor
  · intro h
    simp [truncate_if_needed, h]
  · intro h
    have hnot : ¬ ((tok context : Int) ≤ effectiveMaxTokens max_tokens) :=
      not_le.mpr h
    have hdisp : truncate_if_needed tok context max_tokens mode =
        truncate_sliding_window tok context (effectiveMaxTokens max_tokens) := by
      by_cases hm : effectiveMode mode = "sliding_window"
      · simp [truncate_if_needed, hnot, hm]
      · simp [truncate_if_needed, hnot, hm, ← truncate_helpers_eq]
    obtain ⟨k, hk, heq, hsum⟩ := addLoop_spec tok
      (((splitNL context).filter (fun l => !strStartsWith l "System:")).reverse)
      (effectiveMaxTokens max_tokens -
        (tok (joinNL ((splitNL context).filter
          (fun l => strStartsWith l "System:"))) : Int)) []
    refine ⟨((((splitNL context).filter
        (fun l => !strStartsWith l "System:")).reverse.take k)).reverse, ?_, ?_, ?_⟩
    · simpa using List.reverse_suffix.mpr
        ( List.take_prefix k
          ((splitNL context).filter (fun l => !strStartsWith l "System:")).reverse)
    · rw [hdisp]
      have hcomp : (not ∘ fun l : String => strStartsWith l "System:") =
          (fun l : String => !strStartsWith l "System:") := rfl
      simp only [truncate_sliding_window, List.partition_eq_filter_filter,
        hcomp]
      rw [heq]
      simp
    · rw [List.map_reverse, List.sum_reverse]
      exact hsum

/-- Witness for C3: a context of one System line and two user lines
with the character-count tokenizer and budget 20 is over budget;
applying the theorem yields the decomposition. -/
theorem truncate_if_needed_spec_witness :
    (effectiveMaxTokens (some 20) <
      ((fun s : String => s.length) "System: s\nUser: abcdef\nUser: xy" : Int)) ∧
    (∃ added : List String,
      added <:+ ((splitNL "System: s\nUser: abcdef\nUser: xy").filter
        (fun l => !strStartsWith l "System:")) ∧
      truncate_if_needed (fun s => s.length) "System: s\nUser: abcdef\nUser: xy"
          (some 20) (some "sliding_window") =
        joinNL ((splitNL "System: s\nUser: abcdef\nUser: xy").filter
          (fun l => strStartsWith l "System:") ++ added) ∧
      (added.map (fun l => ((fun s : String => s.length) l : Int))).sum ≤
        max 0 (effectiveMaxTokens (some 20) -
          ((fun s : String => s.length)
            (joinNL ((splitNL "System: s\nUser: abcdef\nUser: xy").filter
              (fun l => strStartsWith l "System:"))) : Int))) :=
  ⟨by decide,
    (truncate_if_needed_spec (fun s => s.length) "System: s\nUser: abcdef\nUser: xy"
      (some 20) (some "sliding_window")).2 (by decide)⟩

/-- Every streamed-token event has done false and no error field. -/
lemma tokenChunks_done_error :
    ∀ (toks : List String) (n : Nat), ∀ c ∈ tokenChunks n toks,
      c.done = false ∧ c.error = none := by
  intro toks
  induction toks with
  | nil =>
    intro n c hc
    simp [tokenChunks] at hc
  | cons t ts ih =>
    intro n c hc
    rw [tokenChunks] at hc
    rcases List.mem_cons.mp hc with rfl | h2
    · exact ⟨rfl, rfl⟩
    · exact ih (n + 1) c h2

/-- One-step unfolding of the line loop. -/
lemma runLines_cons (cancelFrom : Option Nat) (i : Nat) (l : Line)
    (rest : List Line) :
    runLines cancelFrom i (l :: rest) =
      (if cancelHit cancelFrom i then ([], .cancelDetected, i)
      else
        match l with
        | .blank => runLines cancelFrom (i + 1) rest
        | .malformed _ => runLines cancelFrom (i + 1) rest
        | .payload resp d err =>
            let toks := if resp = "" then [] else [resp]
            if d then (toks, .finished, i + 1)
            else
              match err with
              | some m => (toks, .failed ("Model server error: " ++ m), i + 1)
              | none =>
                  let r := runLines cancelFrom (i + 1) rest
                  (toks ++ r.1, r.2.1, r.2.2)) := rfl

/-- Within one attempt, the number of yielded tokens plus the starting
line-check count never exceeds the final line-check count, and the
final count stays within the cancellation index once the starting count
is. -/
lemma runLines_cancel_spec (k : Nat) :
    ∀ (lines : List Line) (i : Nat),
      (runLines (some k) i lines).1.length + i ≤ (runLines (some k) i lines).2.2 ∧
      (i ≤ k → (runLines (some k) i lines).2.2 ≤ k) := by
  intro lines
  induction lines with
  | nil =>
    intro i
    exact ⟨by simp [runLines], fun h => by simpa [runLines] using h⟩
  | cons l rest ih =>
    intro i
    by_cases hc : k ≤ i
    · have hid : cancelHit (some k) i = true := by simp [cancelHit, hc]
      rw [runLines_cons, if_pos hid]
      exact ⟨by simp, fun h => h⟩
    · have hne : ¬ (cancelHit (some k) i = true) := by simp [cancelHit, hc]
      rw [runLines_cons, if_neg hne]
      cases l with
      | blank =>
        refine ⟨?_, ?_⟩
        · show (runLines (some k) (i + 1) rest).1.length + i ≤
            (runLines (some k) (i + 1) rest).2.2
          have h1 := (ih (i + 1)).1
          omega
        · intro _
          show (runLines (some k) (i + 1) rest).2.2 ≤ k
          exact (ih (i + 1)).2 (by omega)
      | malformed s =>
        refine ⟨?_, ?_⟩
        · show (runLines (some k) (i + 1) rest).1.length + i ≤
            (runLines (some k) (i + 1) rest).2.2
          have h1 := (ih (i + 1)).1
          omega
        · intro _
          show (runLines (some k) (i + 1) rest).2.2 ≤ k
          exact (ih (i + 1)).2 (by omega)
      | payload resp d err =>
        have htoks : (if resp = "" then ([] : List String) else [resp]).length ≤ 1 := by
          by_cases hr : resp = "" <;> simp [hr]
        cases d with
        | true =>
          refine ⟨?_, ?_⟩
          · show (if resp = "" then ([] : List String) else [resp]).length + i ≤ i + 1
            omega
          · intro _
            show i + 1 ≤ k
            omega
        | false =>
          cases err with
          | some m =>
            refine ⟨?_, ?_⟩
            · show (if resp = "" then ([] : List String) else [resp]).length + i ≤ i + 1
              omega
            · intro _
              show i + 1 ≤ k
              omega
          | none =>
            refine ⟨?_, ?_⟩
            · show ((if resp = "" then ([] : List String) else [resp]) ++
                  (runLines (some k) (i + 1) rest).1).length + i ≤
                (runLines (some k) (i + 1) rest).2.2
              rw [List.length_append]
              have h1 := (ih (i + 1)).1
              omega
            · intro _
              show (runLines (some k) (i + 1) rest).2.2 ≤ k
              exact (ih (i + 1)).2 (by omega)

/-- Across the whole retry loop, a cancellation index of k bounds the
number of yielded tokens: every token comes from a line check performed
before the token read as done. -/
lemma stream_completion_cancel_toks_le (k : Nat) :
    ∀ (attempts : List (Except String (List Line))) (i : Nat), i ≤ k →
      (stream_completion (some k) i attempts).1.length + i ≤ k := by
  intro attempts
  induction attempts with
  | nil =>
    intro i h
    show ([] : List String).length + i ≤ k
    simpa using h
  | cons a rest ih =>
    intro i h
    cases a with
    | error e =>
      cases rest with
      | nil =>
        show ([] : List String).length + i ≤ k
        simpa using h
      | cons b bs =>
        rw [stream_completion_cons_error]
        exact ih i h
    | ok lines =>
      have hr := runLines_cancel_spec k lines i
      rw [stream_completion_cons_ok]
      rcases hend : (runLines (some k) i lines).2.1 with _ | _ | msg
      · show (runLines (some k) i lines).1.length + i ≤ k
        have h1 := hr.1
        have h2 := hr.2 h
        omega
      · show (runLines (some k) i lines).1.length + i ≤ k
        have h1 := hr.1
        have h2 := hr.2 h
        omega
      · cases rest with
        | nil =>
          show (runLines (some k) i lines).1.length + i ≤ k
          have h1 := hr.1
          have h2 := hr.2 h
          omega
        | cons b bs =>
          show ((runLines (some k) i lines).1 ++
              (stream_completion (some k) (runLines (some k) i lines).2.2
                (b :: bs)).1).length + i ≤ k
          rw [List.length_append]
          have h1 := hr.1
          have h2 := hr.2 h
          have h3 := ih (runLines (some k) i lines).2.2 h2
          omega

/-- C4 counterexample: a five-token stream whose cancellation token
reads as done after two line checks ends after two tokens, yet the
orchestrator still produces a terminal done-true event without an
error, carrying the partial response — the stream does not simply end
without a terminal event. -/
theorem generate_response_cancellation_counterexample :
    (stream_completion (some 2) 0 [Except.ok [Line.payload "a" false none,
        Line.payload "b" false none, Line.payload "c" false none,
        Line.payload "d" false none, Line.payload "e" true none]]).2 =
      StreamEnd.cancelledEnd ∧
    (generate_response (fun s => s.length) "ctx" true
        [Except.ok [Line.payload "a" false none, Line.payload "b" false none,
          Line.payload "c" false none, Line.payload "d" false none,
          Line.payload "e" true none]] [] (some 2)).getLast? =
      some (Chunk.mk "" true (some 2) (some "ab") (some 3) none) :=
  ⟨by decide, by decide⟩

/-- C4 amended: once the cancellation token of a streaming generation
is observed as resolved, no further token events are emitted (the token
count is bounded by the cancellation index), no error event is emitted
anywhere in the stream, and every non-terminal event is a plain token
event — but generate_response still falls through to its final yield,
so exactly one terminal done-true event (without an error, carrying the
partial response accumulated so far) is produced rather than the
stream simply ending without a terminal event. -/
theorem generate_response_cancellation (tok : String → Nat) (context : String)
    (server : List (Except String (List Line)))
    (serverOnce : List (Except String String)) (k : Nat)
    (hcancel : (stream_completion (some k) 0 server).2 = StreamEnd.cancelledEnd) :
    generate_response tok context true server serverOnce (some k) =
      tokenChunks 0 (stream_completion (some k) 0 server).1 ++
        [successChunk tok context (stream_completion (some k) 0 server).1] ∧
    (stream_completion (some k) 0 server).1.length ≤ k ∧
    (∀ c ∈ generate_response tok context true server serverOnce (some k),
      c.error = none) ∧
    (∀ c ∈ tokenChunks 0 (stream_completion (some k) 0 server).1,
      c.done = false) := by
  have h1 : generate_response tok context true server serverOnce (some k) =
      tokenChunks 0 (stream_completion (some k) 0 server).1 ++
        [successChunk tok context (stream_completion (some k) 0 server).1] := by
    simp [generate_response, hcancel]
  refine ⟨h1, ?_, ?_, ?_⟩
  · have := stream_completion_cancel_toks_le k server 0 (Nat.zero_le k)
    omega
  · intro c hc
    rw [h1] at hc
    rcases List.mem_append.mp hc with h2 | h2
    · exact (tokenChunks_done_error _ 0 c h2).2
    · rw [List.mem_singleton.mp h2]
      rfl
  · intro c hc
    exact (tokenChunks_done_error _ 0 c hc).1

/-- Witness for C4 at a five-token stream cancelled after two line
checks. -/
theorem generate_response_cancellation_witness :
    (stream_completion (some 2) 0 [Except.ok [Line.payload "t1" false none,
        Line.payload "t2" false none, Line.payload "t3" false none,
        Line.payload "t4" false none, Line.payload "t5" true none]]).2 =
      StreamEnd.cancelledEnd ∧
    (generate_response (fun s => s.length) "pp" true
        [Except.ok [Line.payload "t1" false none, Line.payload "t2" false none,
          Line.payload "t3" false none, Line.payload "t4" false none,
          Line.payload "t5" true none]] [] (some 2) =
      tokenChunks 0 (stream_completion (some 2) 0
          [Except.ok [Line.payload "t1" false none, Line.payload "t2" false none,
            Line.payload "t3" false none, Line.payload "t4" false none,
            Line.payload "t5" true none]]).1 ++
        [successChunk (fun s => s.length) "pp"
          (stream_completion (some 2) 0
            [Except.ok [Line.payload "t1" false none, Line.payload "t2" false none,
              Line.payload "t3" false none, Line.payload "t4" false none,
              Line.payload "t5" true none]]).1] ∧
      (stream_completion (some 2) 0
        [Except.ok [Line.payload "t1" false none, Line.payload "t2" false none,
          Line.payload "t3" false none, Line.payload "t4" false none,
          Line.payload "t5" true none]]).1.length ≤ 2 ∧
      (∀ c ∈ generate_response (fun s => s.length) "pp" true
          [Except.ok [Line.payload "t1" false none, Line.payload "t2" false none,
            Line.payload "t3" false none, Line.payload "t4" false none,
            Line.payload "t5" true none]] [] (some 2), c.error = none) ∧
      (∀ c ∈ tokenChunks 0 (stream_completion (some 2) 0
          [Except.ok [Line.payload "t1" false none, Line.payload "t2" false none,
            Line.payload "t3" false none, Line.payload "t4" false none,
            Line.payload "t5" true none]]).1, c.done = false)) :=
  ⟨by decide,
    generate_response_cancellation (fun s => s.length) "pp" _ [] 2 (by decide)⟩

/-- One-step unfolding of the similarity scan loop. -/
lemma findLoop_cons (cos : List Rat → List Rat → Rat) (T : Rat) (q : List Rat)
    (e : L2Entry) (rest : List L2Entry) (best : Option (String × Rat))
    (bestSim : Rat) :
    findLoop cos T q (e :: rest) best bestSim =
      (match usableData e with
      | none => findLoop cos T q rest best bestSim
      | some (emb, resp) =>
          if bestSim < cos q emb ∧ T ≤ cos q emb then
            findLoop cos T q rest (some (resp, cos q emb)) (cos q emb)
          else findLoop cos T q rest best bestSim) := rfl

/-- Full characterisation of the similarity scan loop, by induction on
the remaining entries, generalising over a loop state that is either
initial (no best, similarity zero) or holds a previously selected best
at or above the threshold. -/
lemma findLoop_spec (cos : List Rat → List Rat → Rat) (T : Rat) (q : List Rat)
    (hT : 0 < T) :
    ∀ (es : List L2Entry) (best : Option (String × Rat)) (bestSim : Rat),
      ((best = none ∧ bestSim = 0) ∨
        (∃ r0, best = some (r0, bestSim) ∧ T ≤ bestSim)) →
      ((findLoop cos T q es best bestSim = none →
          best = none ∧
          ∀ e ∈ es, ∀ emb resp, usableData e = some (emb, resp) →
            cos q emb < T) ∧
        (∀ r s, findLoop cos T q es best bestSim = some (r, s) →
          T ≤ s ∧ bestSim ≤ s ∧
          (∀ e ∈ es, ∀ emb resp, usableData e = some (emb, resp) →
            T ≤ cos q emb → cos q emb ≤ s) ∧
          ((best = some (r, s) ∧ s = bestSim) ∨
            (∃ pre e post, es = pre ++ e :: post ∧
              (∃ emb, usableData e = some (emb, r) ∧ s = cos q emb) ∧
              bestSim < s ∧
              (∀ e2 ∈ pre, ∀ emb2 resp2, usableData e2 = some (emb2, resp2) →
                cos q emb2 < s))))) := by
  intro es
  induction es with
  | nil =>
    intro best bestSim hinv
    constructor
    · intro hnone
      refine ⟨hnone, ?_⟩
      intro e he
      simp at he
    · intro r s hsome
      rcases hinv with ⟨hb, hs⟩ | ⟨r0, hb, hts⟩
      · rw [hb] at hsome
        exact absurd hsome (by simp [findLoop])
      · have : best = some (r, s) := by rw [← hsome]; rfl
        rw [hb] at this
        have hr0 : r0 = r ∧ bestSim = s := by
          have h5 := Option.some.inj this
          exact ⟨congrArg Prod.fst h5, congrArg Prod.snd h5⟩
        refine ⟨hr0.2 ▸ hts, le_of_eq hr0.2, ?_, Or.inl ⟨?_, hr0.2.symm⟩⟩
        · intro e he
          simp at he
        · rw [hb, hr0.1, hr0.2]
  | cons e rest ih =>
    intro best bestSim hinv
    rcases he : usableData e with _ | ⟨emb, resp⟩
    · have heq : findLoop cos T q (e :: rest) best bestSim =
          findLoop cos T q rest best bestSim := by
        rw [findLoop_cons, he]
      have IH := ih best bestSim hinv
      constructor
      · intro hnone
        rw [heq] at hnone
        obtain ⟨hb, hall⟩ := IH.1 hnone
        refine ⟨hb, ?_⟩
        intro e2 he2 emb2 resp2 hu2
        rcases List.mem_cons.mp he2 with rfl | h3
        · rw [he] at hu2; exact absurd hu2 (by simp)
        · exact hall e2 h3 emb2 resp2 hu2
      · intro r s hsome
        rw [heq] at hsome
        obtain ⟨h1, h2, h3, h4⟩ := IH.2 r s hsome
        refine ⟨h1, h2, ?_, ?_⟩
        · intro e2 he2 emb2 resp2 hu2 hq
          rcases List.mem_cons.mp he2 with rfl | h5
          · rw [he] at hu2; exact absurd hu2 (by simp)
          · exact h3 e2 h5 emb2 resp2 hu2 hq
        · rcases h4 with hl | ⟨pre, e0, post, hdec, hpay, hlt, hpre⟩
          · exact Or.inl hl
          · refine Or.inr ⟨e :: pre, e0, post, by rw [hdec]; rfl, hpay, hlt, ?_⟩
            intro e2 he2 emb2 resp2 hu2
            rcases List.mem_cons.mp he2 with rfl | h5
            · rw [he] at hu2; exact absurd hu2 (by simp)
            · exact hpre e2 h5 emb2 resp2 hu2
    · by_cases hup : bestSim < cos q emb ∧ T ≤ cos q emb
      · have heq : findLoop cos T q (e :: rest) best bestSim =
            findLoop cos T q rest (some (resp, cos q emb)) (cos q emb) := by
          rw [findLoop_cons, he]
          exact if_pos hup
        have IH := ih (some (resp, cos q emb)) (cos q emb)
          (Or.inr ⟨resp, rfl, hup.2⟩)
        constructor
        · intro hnone
          rw [heq] at hnone
          exact absurd (IH.1 hnone).1 (by simp)
        · intro r s hsome
          rw [heq] at hsome
          obtain ⟨h1, h2, h3, h4⟩ := IH.2 r s hsome
          refine ⟨h1, le_of_lt (lt_of_lt_of_le hup.1 h2), ?_, ?_⟩
          · intro e2 he2 emb2 resp2 hu2 hq
            rcases List.mem_cons.mp he2 with rfl | h5
            · have : emb2 = emb ∧ resp2 = resp := by
                rw [he] at hu2
                have h6 := Option.some.inj hu2
                exact ⟨(congrArg Prod.fst h6).symm, (congrArg Prod.snd h6).symm⟩
              rw [this.1]
              exact h2
            · exact h3 e2 h5 emb2 resp2 hu2 hq
          · rcases h4 with ⟨hl, hseq⟩ | ⟨pre, e0, post, hdec, hpay, hlt, hpre⟩
            · have hrs : r = resp ∧ s = cos q emb := by
                have := Option.some.inj hl
                exact ⟨(congrArg Prod.fst this).symm, hseq⟩
              refine Or.inr ⟨[], e, rest, rfl, ⟨emb, ?_, hrs.2⟩, ?_, ?_⟩
              · rw [he, hrs.1]
              · rw [hrs.2]; exact hup.1
              · intro e2 he2
                simp at he2
            · refine Or.inr ⟨e :: pre, e0, post, by rw [hdec]; rfl, hpay, ?_, ?_⟩
              · exact lt_trans hup.1 hlt
              · intro e2 he2 emb2 resp2 hu2
                rcases List.mem_cons.mp he2 with rfl | h5
                · have : emb2 = emb := by
                    rw [he] at hu2
                    exact (congrArg Prod.fst (Option.some.inj hu2)).symm
                  rw [this]
                  exact hlt
                · exact hpre e2 h5 emb2 resp2 hu2
      · have heq : findLoop cos T q (e :: rest) best bestSim =
            findLoop cos T q rest best bestSim := by
          rw [findLoop_cons, he]
          exact if_neg hup
        have hcase : cos q emb ≤ bestSim ∨ cos q emb < T := by
          by_cases h1 : T ≤ cos q emb
          · left
            by_contra h2
            exact hup ⟨lt_of_not_le h2, h1⟩
          · right
            exact lt_of_not_le h1
        have IH := ih best bestSim hinv
        constructor
        · intro hnone
          rw [heq] at hnone
          obtain ⟨hb, hall⟩ := IH.1 hnone
          have hbs0 : bestSim = 0 := by
            rcases hinv with ⟨_, h0⟩ | ⟨r0, hb2, _⟩
            · exact h0
            · rw [hb] at hb2; exact absurd hb2 (by simp)
          refine ⟨hb, ?_⟩
          intro e2 he2 emb2 resp2 hu2
          rcases List.mem_cons.mp he2 with rfl | h3
          · have hemb : emb2 = emb := by
              rw [he] at hu2
              exact (congrArg Prod.fst (Option.some.inj hu2)).symm
            rw [hemb]
            rcases hcase with h4 | h4
            · rw [hbs0] at h4
              exact lt_of_le_of_lt h4 hT
            · exact h4
          · exact hall e2 h3 emb2 resp2 hu2
        · intro r s hsome
          rw [heq] at hsome
          obtain ⟨h1, h2, h3, h4⟩ := IH.2 r s hsome
          refine ⟨h1, h2, ?_, ?_⟩
          · intro e2 he2 emb2 resp2 hu2 hq
            rcases List.mem_cons.mp he2 with rfl | h5
            · have hemb : emb2 = emb := by
                rw [he] at hu2
                exact (congrArg Prod.fst (Option.some.inj hu2)).symm
              rw [hemb] at hq ⊢
              rcases hcase with h6 | h6
              · exact le_trans h6 h2
              · exact absurd hq (not_le.mpr h6)
            · exact h3 e2 h5 emb2 resp2 hu2 hq
          · rcases h4 with hl | ⟨pre, e0, post, hdec, hpay, hlt, hpre⟩
            · exact Or.inl hl
            · refine Or.inr ⟨e :: pre, e0, post, by rw [hdec]; rfl, hpay, hlt, ?_⟩
              intro e2 he2 emb2 resp2 hu2
              rcases List.mem_cons.mp he2 with rfl | h5
              · have hemb : emb2 = emb := by
                  rw [he] at hu2
                  exact (congrArg Prod.fst (Option.some.inj hu2)).symm
                rw [hemb]
                rcases hcase with h6 | h6
                · exact lt_of_le_of_lt h6 hlt
                · exact lt_of_lt_of_le h6 h1
              · exact hpre e2 h5 emb2 resp2 hu2

/-- C7: for every query embedding and positive effective threshold
(default 0.85), find_similar never returns an entry whose computed
similarity is below the threshold; when it returns an entry, that entry
is in the store, its similarity dominates every usable entry at or
above the threshold, and every entry scanned before it is strictly
below the returned score (the first entry reaching the best score in
scan order wins); when it returns none, no usable entry reaches the
threshold. -/
theorem find_similar_spec (cos : List Rat → List Rat → Rat)
    (threshold : Option Rat) (entries : List L2Entry) (q : List Rat)
    (hT : 0 < effectiveThreshold threshold) :
    (∀ r s, find_similar cos threshold (Except.ok entries) q = some (r, s) →
      effectiveThreshold threshold ≤ s ∧
      (∀ e ∈ entries, ∀ emb resp, usableData e = some (emb, resp) →
        effectiveThreshold threshold ≤ cos q emb → cos q emb ≤ s) ∧
      (∃ pre e post, entries = pre ++ e :: post ∧
        (∃ emb, usableData e = some (emb, r) ∧ s = cos q emb) ∧
        (∀ e2 ∈ pre, ∀ emb2 resp2, usableData e2 = some (emb2, resp2) →
          cos q emb2 < s))) ∧
    (find_similar cos threshold (Except.ok entries) q = none →
      ∀ e ∈ entries, ∀ emb resp, usableData e = some (emb, resp) →
        cos q emb < effectiveThreshold threshold) := by
  have h := findLoop_spec cos (effectiveThreshold threshold) q hT entries
    none 0 (Or.inl ⟨rfl, rfl⟩)
  constructor
  · intro r s hr
    have h2 := h.2 r s hr
    refine ⟨h2.1, h2.2.2.1, ?_⟩
    rcases h2.2.2.2 with ⟨hbest, _⟩ | ⟨pre, e, post, hdec, hpay, _, hpre⟩
    · exact absurd hbest (by simp)
    · exact ⟨pre, e, post, hdec, hpay, hpre⟩
  · intro hnone
    exact (h.1 hnone).2

/-- Witness for C7 at an explicit threshold of 1 with three usable
entries of integer similarities 1, 2 and 2: the scan returns the first
entry reaching the best score. -/
theorem find_similar_spec_witness :
    (0 : Rat) < effectiveThreshold (some 1) ∧
    find_similar
        (fun (_ e : List Rat) => if e = [1] then (1 : Rat)
          else if e = [2] then 2 else if e = [3] then 2 else 0)
        (some 1)
        (Except.ok [L2Entry.fields (some [1]) (some "r1"),
          L2Entry.fields (some [2]) (some "r2"),
          L2Entry.fields (some [3]) (some "r3")]) ([] : List Rat) =
      some ("r2", 2) ∧
    (∀ r s, find_similar
        (fun (_ e : List Rat) => if e = [1] then (1 : Rat)
          else if e = [2] then 2 else if e = [3] then 2 else 0)
        (some 1)
        (Except.ok [L2Entry.fields (some [1]) (some "r1"),
          L2Entry.fields (some [2]) (some "r2"),
          L2Entry.fields (some [3]) (some "r3")]) ([] : List Rat) = some (r, s) →
      effectiveThreshold (some 1) ≤ s ∧
      (∀ e ∈ [L2Entry.fields (some [1]) (some "r1"),
          L2Entry.fields (some [2]) (some "r2"),
          L2Entry.fields (some [3]) (some "r3")],
        ∀ emb resp, usableData e = some (emb, resp) →
        effectiveThreshold (some 1) ≤
          (fun (_ e : List Rat) => if e = [1] then (1 : Rat)
            else if e = [2] then 2 else if e = [3] then 2 else 0) [] emb →
        (fun (_ e : List Rat) => if e = [1] then (1 : Rat)
          else if e = [2] then 2 else if e = [3] then 2 else 0) [] emb ≤ s) ∧
      (∃ pre e post, [L2Entry.fields (some [1]) (some "r1"),
          L2Entry.fields (some [2]) (some "r2"),
          L2Entry.fields (some [3]) (some "r3")] = pre ++ e :: post ∧
        (∃ emb, usableData e = some (emb, r) ∧
          s = (fun (_ e : List Rat) => if e = [1] then (1 : Rat)
            else if e = [2] then 2 else if e = [3] then 2 else 0) [] emb) ∧
        (∀ e2 ∈ pre, ∀ emb2 resp2, usableData e2 = some (emb2, resp2) →
          (fun (_ e : List Rat) => if e = [1] then (1 : Rat)
            else if e = [2] then 2 else if e = [3] then 2 else 0) [] emb2 < s))) :=
  ⟨by decide, by decide,
    (find_similar_spec _ (some 1) _ ([] : List Rat) (by decide)).1⟩
